import Mathlib

/-!
Shallow embedding of the clause-based predicate dispatch engine of
`src/predicate.py` (decorators `predicate`, `principles`, `p_prolog`,
helpers `p_check`, `p_fail`, `p_cut`, and the per-name registries), together
with the two example clauses of `find_in_list` from `src/predicate_example.py`.

Python exceptions are modelled as explicit outcome values: an expression that
may raise is embedded as a function returning a sum of its normal result, the
`PredicateFailed` signal, or an unexpected fault (`exn`).  A generator body is
embedded as the finite run it performs for given arguments: the list of items
it yields, followed by how it terminates.  Totality of the Lean dispatch
functions reflects that the Python wrappers catch every exception internally.
-/

set_option autoImplicit false

/-- Result of evaluating a Python boolean expression that may raise:
either a boolean, or an escaping exception (`exn`). -/
inductive GuardEval where
  | ok (b : Bool)
  | exn
deriving DecidableEq, Repr

/-- The guard expression `(current_guard is None) or current_guard(*args, **kwargs)`
as evaluated inside the wrappers' `try` blocks: a missing guard counts as `True`;
a present guard is applied and may raise. -/
def guard_eval {α : Type} (g : Option (α → GuardEval)) (a : α) : GuardEval :=
  match g with
  | none => .ok true
  | some f => f a

/-- The value of `guard_ok` after the `try/except` in `predicate_wrapper` and
`p_prolog_wrapper`: an exception from the guard is downgraded to `False`. -/
def guard_ok {α : Type} (g : Option (α → GuardEval)) (a : α) : Bool :=
  match guard_eval g a with
  | .ok b => b
  | .exn => false

/-- Outcome of running a clause body `pred_func(*args, **kwargs)`:
normal return of some value `v`, the explicit `PredicateFailed` signal
(raised by `p_check`/`p_fail`, carrying an optional message), or any other
exception (`exn`). -/
inductive BodyRes (ρ : Type) where
  | success (v : ρ)
  | predicateFailed (msg : Option String)
  | exn
deriving DecidableEq, Repr

/-- One registered clause `(guard, func)` of a `predicate`/`principles`
registry entry. -/
structure Clause (α ρ : Type) where
  guard : Option (α → GuardEval)
  body : α → BodyRes ρ

/-- `predicate_wrapper` of `src/predicate.py`: walk the clause list in order;
a clause whose guard passes and whose body returns normally makes the whole
call return `True` at once; `PredicateFailed` or any other exception from the
body falls through to the next clause; exhausting the list returns `False`. -/
def predicate_wrapper {α ρ : Type} (defs : List (Clause α ρ)) (a : α) : Bool :=
  match defs with
  | [] => false
  | c :: rest =>
    if guard_ok c.guard a then
      match c.body a with
      | .success _ => true
      | .predicateFailed _ => predicate_wrapper rest a
      | .exn => predicate_wrapper rest a
    else
      predicate_wrapper rest a

/-- `principles_wrapper` of `src/predicate.py`: walk the clause list in order;
a guard that raises or returns `False` fails the whole call at once, as does a
body raising `PredicateFailed` or any other exception; the call returns `True`
only when every clause's guard and body succeed in sequence. -/
def principles_wrapper {α ρ : Type} (defs : List (Clause α ρ)) (a : α) : Bool :=
  match defs with
  | [] => true
  | c :: rest =>
    match guard_eval c.guard a with
    | .exn => false
    | .ok false => false
    | .ok true =>
      match c.body a with
      | .success _ => principles_wrapper rest a
      | .predicateFailed _ => false
      | .exn => false

/-- One item produced by a `p_prolog` clause generator: the cut sentinel
`_PREDICATE_CUT_SENTINEL` (yielded via `yield p_cut()`) or an ordinary value. -/
inductive GenItem (σ : Type) where
  | cutSentinel
  | val (v : σ)
deriving DecidableEq, Repr

/-- How the draining of a clause generator terminates: normal exhaustion
(`StopIteration`), the `PredicateFailed` signal, or any other exception. -/
inductive GenEnd where
  | done
  | predicateFailed (msg : Option String)
  | exn
deriving DecidableEq, Repr

/-- The finite run that draining `pred_func(*args, **kwargs)` performs for
given arguments: the items yielded before termination, then the ending.
A body whose returned value is not iterable yields no items and ends with the
`TypeError` (an `exn` ending). -/
structure GenRun (σ : Type) where
  items : List (GenItem σ)
  ending : GenEnd

/-- One registered clause `(guard, func)` of a `p_prolog` registry entry. -/
structure PClause (α σ : Type) where
  guard : Option (α → GuardEval)
  body : α → GenRun σ

/-- The inner `for result in result_generator` loop of `p_prolog_wrapper`:
the cut sentinel sets `cut_encountered` and is not collected; every other item
is appended to `solutions`; draining continues to the end of the item list. -/
def drain {σ : Type} (items : List (GenItem σ)) (solutions : List σ)
    (cut_encountered : Bool) : List σ × Bool :=
  match items with
  | [] => (solutions, cut_encountered)
  | .cutSentinel :: rest => drain rest solutions true
  | .val v :: rest => drain rest (solutions ++ [v]) cut_encountered

/-- The outer clause loop of `p_prolog_wrapper`, carrying the `solutions`
accumulator and the `cut_encountered` flag: a set flag breaks out before the
next clause's guard is even looked at; a passing guard drains the clause's
run (its ending — exhaustion, `PredicateFailed` or another exception — is
absorbed either way); a failing or raising guard skips the clause. -/
def p_prolog_loop {α σ : Type} (defs : List (PClause α σ)) (a : α)
    (solutions : List σ) (cut_encountered : Bool) : List σ :=
  match defs with
  | [] => solutions
  | c :: rest =>
    if cut_encountered then
      solutions
    else if guard_ok c.guard a then
      let r := drain (c.body a).items solutions cut_encountered
      p_prolog_loop rest a r.1 r.2
    else
      p_prolog_loop rest a solutions cut_encountered

/-- `p_prolog_wrapper` of `src/predicate.py`: run the clause loop with an
empty solution list and an unset cut flag and return the collected
solutions. -/
def p_prolog_wrapper {α σ : Type} (defs : List (PClause α σ)) (a : α) : List σ :=
  p_prolog_loop defs a [] false

/-- The ordinary (non-sentinel) values of an item list, in order: exactly
what `drain` appends to the solution accumulator. -/
def valuesOf {σ : Type} (items : List (GenItem σ)) : List σ :=
  match items with
  | [] => []
  | .cutSentinel :: rest => valuesOf rest
  | .val v :: rest => v :: valuesOf rest

/-- Whether an item list contains the cut sentinel. -/
def containsCut {σ : Type} (items : List (GenItem σ)) : Bool :=
  match items with
  | [] => false
  | .cutSentinel :: _ => true
  | .val _ :: rest => containsCut rest

/-- Whether a `BodyRes` is a normal return: the condition under which the
`try` around `pred_func(*args, **kwargs)` reaches its success branch. -/
def body_ok {ρ : Type} (r : BodyRes ρ) : Bool :=
  match r with
  | .success _ => true
  | .predicateFailed _ => false
  | .exn => false

/-! ### Registration model

The three decorators share one registration pattern over the module-level
dictionaries `_predicate_registry`/`_predicate_wrappers`,
`_principles_registry`/`_principles_wrappers` and
`_p_prolog_registry`/`_p_prolog_wrappers`: on the first clause for a name the
registry entry is initialised and a fresh wrapper closure is created and
stored; every registration appends its `(guard, func)` pair and returns the
stored wrapper.  Wrapper closures are modelled as handles carrying a creation
serial number (distinct creations give distinct handles) and the strategy kind
of the decorator that created them. -/

/-- The three dispatch strategies. -/
inductive StrategyKind where
  | orElse
  | strictAll
  | backtracking
deriving DecidableEq, Repr

/-- A wrapper closure stored in one of the `_*_wrappers` dictionaries:
`id` is its creation serial number, `kind` the strategy of its decorator. -/
structure Handle where
  id : Nat
  kind : StrategyKind
deriving DecidableEq, Repr

/-- Dictionary lookup `d.get(k)` / `k in d` on a model of a `dict` as an
association list. -/
def getEntry {β : Type} (k : String) (d : List (String × β)) : Option β :=
  match d with
  | [] => none
  | (k', v) :: rest => if k = k' then some v else getEntry k rest

/-- Dictionary update `d[k] = v` on the association-list model. -/
def setEntry {β : Type} (k : String) (v : β) (d : List (String × β)) :
    List (String × β) :=
  match d with
  | [] => [(k, v)]
  | (k', w) :: rest => if k = k' then (k, v) :: rest else (k', w) :: setEntry k v rest

/-- The module-level mutable state of `src/predicate.py`: the three clause
registries, the three wrapper dictionaries, and a serial counter used to give
each created wrapper closure a distinct identity. -/
structure RegistryState (α ρ σ : Type) where
  predicate_registry : List (String × List (Clause α ρ))
  predicate_wrappers : List (String × Handle)
  principles_registry : List (String × List (Clause α ρ))
  principles_wrappers : List (String × Handle)
  p_prolog_registry : List (String × List (PClause α σ))
  p_prolog_wrappers : List (String × Handle)
  nextId : Nat

/-- The state before any decorator has run: all six dictionaries empty. -/
def initState (α ρ σ : Type) : RegistryState α ρ σ :=
  ⟨[], [], [], [], [], [], 0⟩

/-- The `@predicate(guard)` decorator applied to a function named `name`:
if `name` is new, initialise its registry entry and create and store the
wrapper; append the clause; return the stored wrapper. -/
def predicate_register {α ρ σ : Type} (name : String)
    (g : Option (α → GuardEval)) (b : α → BodyRes ρ)
    (s : RegistryState α ρ σ) : Handle × RegistryState α ρ σ :=
  let s1 :=
    if (getEntry name s.predicate_registry).isNone then
      { s with
        predicate_registry := setEntry name [] s.predicate_registry
        predicate_wrappers :=
          setEntry name ⟨s.nextId, .orElse⟩ s.predicate_wrappers
        nextId := s.nextId + 1 }
    else s
  let entry := (getEntry name s1.predicate_registry).getD []
  let s2 := { s1 with
    predicate_registry := setEntry name (entry ++ [⟨g, b⟩]) s1.predicate_registry }
  ((getEntry name s2.predicate_wrappers).getD ⟨0, .orElse⟩, s2)

/-- The `@principles(guard)` decorator applied to a function named `name`. -/
def principles_register {α ρ σ : Type} (name : String)
    (g : Option (α → GuardEval)) (b : α → BodyRes ρ)
    (s : RegistryState α ρ σ) : Handle × RegistryState α ρ σ :=
  let s1 :=
    if (getEntry name s.principles_registry).isNone then
      { s with
        principles_registry := setEntry name [] s.principles_registry
        principles_wrappers :=
          setEntry name ⟨s.nextId, .strictAll⟩ s.principles_wrappers
        nextId := s.nextId + 1 }
    else s
  let entry := (getEntry name s1.principles_registry).getD []
  let s2 := { s1 with
    principles_registry := setEntry name (entry ++ [⟨g, b⟩]) s1.principles_registry }
  ((getEntry name s2.principles_wrappers).getD ⟨0, .strictAll⟩, s2)

/-- The `@p_prolog(guard)` decorator applied to a function named `name`. -/
def p_prolog_register {α ρ σ : Type} (name : String)
    (g : Option (α → GuardEval)) (b : α → GenRun σ)
    (s : RegistryState α ρ σ) : Handle × RegistryState α ρ σ :=
  let s1 :=
    if (getEntry name s.p_prolog_registry).isNone then
      { s with
        p_prolog_registry := setEntry name [] s.p_prolog_registry
        p_prolog_wrappers :=
          setEntry name ⟨s.nextId, .backtracking⟩ s.p_prolog_wrappers
        nextId := s.nextId + 1 }
    else s
  let entry := (getEntry name s1.p_prolog_registry).getD []
  let s2 := { s1 with
    p_prolog_registry := setEntry name (entry ++ [⟨g, b⟩]) s1.p_prolog_registry }
  ((getEntry name s2.p_prolog_wrappers).getD ⟨0, .backtracking⟩, s2)

/-! ### Fault downgrading

The containment boundary of §7 of the spec, as source-level behavior: inside
each wrapper an exception that is not `PredicateFailed` is caught where it
occurs and handled through the same code path as a clause failure (skip for
guards, `continue`/`pass` for `predicate`/`p_prolog` bodies, `return False`
for `principles`).  The maps below rewrite every fault outcome into the
failure outcome it is downgraded to; the dispatchers are proved insensitive
to this rewriting. -/

/-- Downgrade a guard fault to a plain `False` guard. -/
def downgradeGuardEval (g : GuardEval) : GuardEval :=
  match g with
  | .exn => .ok false
  | .ok b => .ok b

/-- Downgrade a body fault to an explicit `PredicateFailed` outcome. -/
def downgradeBodyRes {ρ : Type} (r : BodyRes ρ) : BodyRes ρ :=
  match r with
  | .exn => .predicateFailed none
  | r => r

/-- Downgrade a generator-run fault ending to a `PredicateFailed` ending. -/
def downgradeGenEnd (e : GenEnd) : GenEnd :=
  match e with
  | .exn => .predicateFailed none
  | e => e

/-- Rewrite every fault a `predicate`/`principles` clause can produce into
the corresponding explicit failure. -/
def downgradeClause {α ρ : Type} (c : Clause α ρ) : Clause α ρ :=
  ⟨c.guard.map (fun f a => downgradeGuardEval (f a)),
   fun a => downgradeBodyRes (c.body a)⟩

/-- Rewrite every fault a `p_prolog` clause can produce into the
corresponding explicit failure (the yielded items are untouched). -/
def downgradePClause {α σ : Type} (c : PClause α σ) : PClause α σ :=
  ⟨c.guard.map (fun f a => downgradeGuardEval (f a)),
   fun a => ⟨(c.body a).items, downgradeGenEnd (c.body a).ending⟩⟩

/-! ### Helpers `p_check` and `p_fail`

Python truthiness is modelled on a small universe `PyVal` of the value shapes
the repository passes to `p_check` (`None`, booleans, ints, floats, strings,
lists).  Raising is modelled with `Except`: `.error` is a raised
`PredicateFailed`, `.ok ()` the implicit `return None`. -/

/-- A Python value, restricted to the shapes this repository feeds to
`p_check` conditions and messages.  A float is stored as twice its value,
which represents every float of the examples (all are exact multiples of
one half) without rounding. -/
inductive PyVal where
  | pyNone
  | bool (b : Bool)
  | int (n : Int)
  | floatHalves (t : Int)
  | str (s : String)
  | list (elems : List PyVal)

/-- Python truthiness `bool(v)` on the modelled values: `None` and empty or
zero values are falsy. -/
def truthy (v : PyVal) : Bool :=
  match v with
  | .pyNone => false
  | .bool b => b
  | .int n => n != 0
  | .floatHalves t => t != 0
  | .str s => s != ""
  | .list elems => !elems.isEmpty

/-- The `PredicateFailed` exception: its constructor argument (the optional
`message` passed by `p_check`; absent for `p_fail`'s bare raise). -/
structure PredicateFailed where
  message : Option PyVal

/-- `p_check` of `src/predicate.py`: raise `PredicateFailed(message)` when the
condition is falsy, otherwise fall through and return `None`. -/
def p_check (condition : PyVal) (message : Option PyVal) :
    Except PredicateFailed Unit :=
  if truthy condition then .ok () else .error ⟨message⟩

/-- `p_fail` of `src/predicate.py`: unconditionally raise `PredicateFailed()`. -/
def p_fail : Except PredicateFailed Unit :=
  .error ⟨none⟩

/-! ### The `find_in_list` example of `src/predicate_example.py`

Arguments are a pair `(item, my_list)` over a numeric universe `PyNum`
(Python ints and floats).  Python numeric `==`, used by `item in my_list`,
compares values across the two types, so both embed into `ℚ`. -/

/-- A Python number as used in the example: an `int`, or a `float` stored as
twice its value (`f t` is the float `t / 2`) — exact for every float literal
the example uses (`-5.0`, `6.5`). -/
inductive PyNum where
  | i (n : Int)
  | f (t : Int)
deriving DecidableEq, Repr

/-- Twice the numeric value of a `PyNum`: Python's cross-type numeric `==`
and `<` compare these scaled values exactly. -/
def PyNum.twiceVal (x : PyNum) : Int :=
  match x with
  | .i n => 2 * n
  | .f t => t

/-- Python `item in my_list`: membership under numeric equality. -/
def pyMem (x : PyNum) (l : List PyNum) : Bool :=
  l.any (fun y => x.twiceVal == y.twiceVal)

/-- Python `isinstance(item, int) and item % 2 == 0` (Python `%` on ints is
`Int.emod`: the result is non-negative for the divisor 2, as in Lean). -/
def isEvenInt (x : PyNum) : Bool :=
  match x with
  | .i n => n % 2 == 0
  | .f _ => false

/-- Python `isinstance(item, (int, float)) and item < 0`: every `PyNum` is an
int or float, so only the sign test remains. -/
def isNegativeNum (x : PyNum) : Bool :=
  decide (x.twiceVal < 0)

/-- The run of the first `find_in_list` clause body (the even-number
generator): `p_check(item in my_list)`, then
`p_check(isinstance(item, int) and item % 2 == 0)`, then `yield item` and a
trailing `print` before normal exhaustion.  (The interpolated f-string
messages are elided to constant text.) -/
def findInListClause1 (item : PyNum) (myList : List PyNum) : GenRun PyNum :=
  if !pyMem item myList then
    ⟨[], .predicateFailed (some "not found in list")⟩
  else if !isEvenInt item then
    ⟨[], .predicateFailed (some "is not an even integer")⟩
  else
    ⟨[.val item], .done⟩

/-- The run of the second `find_in_list` clause body (the negative-number
generator): `p_check(item in my_list)`, then
`p_check(isinstance(item, (int, float)) and item < 0)`, then `yield item`,
then `yield p_cut()`, then a trailing `print` before normal exhaustion. -/
def findInListClause2 (item : PyNum) (myList : List PyNum) : GenRun PyNum :=
  if !pyMem item myList then
    ⟨[], .predicateFailed (some "not found in list")⟩
  else if !isNegativeNum item then
    ⟨[], .predicateFailed (some "is not negative")⟩
  else
    ⟨[.val item, .cutSentinel], .done⟩

/-- The `find_in_list` registry entry: both clauses in declaration order,
each guarded by `isinstance(my_list, list)`, which the typed embedding makes
identically true. -/
def findInListDefs : List (PClause (PyNum × List PyNum) PyNum) :=
  [⟨some (fun _ => .ok true), fun p => findInListClause1 p.1 p.2⟩,
   ⟨some (fun _ => .ok true), fun p => findInListClause2 p.1 p.2⟩]

/-- Invoking `find_in_list(item, my_list)` through its wrapper. -/
def find_in_list (item : PyNum) (myList : List PyNum) : List PyNum :=
  p_prolog_wrapper findInListDefs (item, myList)

/-- The example list `[1, 2, -3, 4, -5.0, 6]` (the float `-5.0` is stored as
twice its value, `-10`). -/
def exampleList : List PyNum :=
  [.i 1, .i 2, .i (-3), .i 4, .f (-10), .i 6]

/-! ### Small concrete clauses, used to instantiate the general theorems -/

/-- An unguarded `predicate`/`principles` clause whose body returns `None`. -/
def cBodySucc : Clause Nat PyVal :=
  ⟨none, fun _ => .success .pyNone⟩

/-- An unguarded clause whose body calls `p_fail()`. -/
def cBodyFail : Clause Nat PyVal :=
  ⟨none, fun _ => .predicateFailed none⟩

/-- A clause whose guard returns `False` and whose body would return `None`. -/
def cGuardFalse : Clause Nat PyVal :=
  ⟨some (fun _ => .ok false), fun _ => .success .pyNone⟩

/-- An unguarded clause whose body returns the Python value `False`. -/
def cRetFalse : Clause Nat PyVal :=
  ⟨none, fun _ => .success (.bool false)⟩

/-- An unguarded `p_prolog` clause yielding `1`, then the cut sentinel, then
`2`, before normal exhaustion. -/
def gCutMid : PClause Unit Int :=
  ⟨none, fun _ => ⟨[.val 1, .cutSentinel, .val 2], .done⟩⟩

/-- An unguarded `p_prolog` clause yielding `9` and exhausting normally. -/
def gNine : PClause Unit Int :=
  ⟨none, fun _ => ⟨[.val 9], .done⟩⟩

/-- An unguarded `p_prolog` clause yielding `7` and then raising
`PredicateFailed`. -/
def gPartial : PClause Unit Int :=
  ⟨none, fun _ => ⟨[.val 7], .predicateFailed none⟩⟩

/-- An unguarded `p_prolog` clause yielding `8` and exhausting normally. -/
def gEight : PClause Unit Int :=
  ⟨none, fun _ => ⟨[.val 8], .done⟩⟩

/-- An unguarded `p_prolog` clause whose body returns a non-iterable value:
no items, `TypeError` fault. -/
def gNonIterable : PClause Unit Int :=
  ⟨none, fun _ => ⟨[], .exn⟩⟩

/-! ### Concrete registration runs -/

/-- A trivial `predicate`/`principles` body over unit arguments. -/
def unitBody : Unit → BodyRes Unit :=
  fun _ => .success ()

/-- A trivial `p_prolog` generator body over unit arguments. -/
def unitGen : Unit → GenRun Unit :=
  fun _ => ⟨[], .done⟩

/-- The registry state after `@predicate()` has decorated a function named
`f` in a fresh module. -/
def regStateA : RegistryState Unit Unit Unit :=
  (predicate_register "f" none unitBody (initState Unit Unit Unit)).2

/-- The registry state after `@p_prolog()` then also decorates a function
named `f`: nothing in the source stops the second decorator, which installs a
second, backtracking wrapper for the same name. -/
def regStateB : RegistryState Unit Unit Unit :=
  (p_prolog_register "f" none unitGen regStateA).2


/-! ## Helper lemmas -/

theorem drain_eq {σ : Type} (items : List (GenItem σ)) (solutions : List σ)
    (cut : Bool) :
    drain items solutions cut
      = (solutions ++ valuesOf items, cut || containsCut items) := by
  induction items generalizing solutions cut with
  | nil => simp [drain, valuesOf, containsCut]
  | cons i rest ih =>
    cases i with
    | cutSentinel => simp [drain, valuesOf, containsCut, ih]
    | val v => simp [drain, valuesOf, containsCut, ih]

theorem p_prolog_loop_of_cut {α σ : Type} (defs : List (PClause α σ)) (a : α)
    (solutions : List σ) :
    p_prolog_loop defs a solutions true = solutions := by
  cases defs with
  | nil => rfl
  | cons c rest => simp [p_prolog_loop]

theorem valuesOf_append {σ : Type} (xs ys : List (GenItem σ)) :
    valuesOf (xs ++ ys) = valuesOf xs ++ valuesOf ys := by
  induction xs with
  | nil => rfl
  | cons i rest ih => cases i <;> simp [valuesOf, ih]

theorem containsCut_append {σ : Type} (xs ys : List (GenItem σ)) :
    containsCut (xs ++ ys) = (containsCut xs || containsCut ys) := by
  induction xs with
  | nil => rfl
  | cons i rest ih => cases i <;> simp [containsCut, ih]

theorem getEntry_setEntry_self {β : Type} (k : String) (v : β)
    (d : List (String × β)) : getEntry k (setEntry k v d) = some v := by
  induction d with
  | nil => simp [getEntry, setEntry]
  | cons p rest ih =>
    by_cases h : k = p.1
    · simp [getEntry, setEntry, h]
    · simp [getEntry, setEntry, h, ih]

theorem guard_eval_downgrade {α ρ : Type} (c : Clause α ρ) (a : α) :
    guard_eval (downgradeClause c).guard a
      = downgradeGuardEval (guard_eval c.guard a) := by
  cases c with
  | mk g b =>
    cases g with
    | none => rfl
    | some f => rfl

theorem guard_ok_downgrade {α ρ : Type} (c : Clause α ρ) (a : α) :
    guard_ok (downgradeClause c).guard a = guard_ok c.guard a := by
  unfold guard_ok
  rw [guard_eval_downgrade]
  cases guard_eval c.guard a with
  | ok b => rfl
  | exn => rfl

theorem guard_eval_pdowngrade {α σ : Type} (c : PClause α σ) (a : α) :
    guard_eval (downgradePClause c).guard a
      = downgradeGuardEval (guard_eval c.guard a) := by
  cases c with
  | mk g b =>
    cases g with
    | none => rfl
    | some f => rfl

theorem guard_ok_pdowngrade {α σ : Type} (c : PClause α σ) (a : α) :
    guard_ok (downgradePClause c).guard a = guard_ok c.guard a := by
  unfold guard_ok
  rw [guard_eval_pdowngrade]
  cases guard_eval c.guard a with
  | ok b => rfl
  | exn => rfl

/-! ## Claim theorems -/

/-- C1: in Backtracking dispatch, a `Cut` marker produced mid-sequence sets
the cut flag without being appended, the same sequence keeps being drained so
values after the marker are still appended, and once that clause's sequence
ends no subsequent clause is tried (the result does not depend on `rest` in
any way, so no later guard is evaluated) and the accumulated list is
returned. -/
theorem p_prolog_cut_mid_sequence {α σ : Type} (c : PClause α σ)
    (rest : List (PClause α σ)) (a : α) (sols : List σ)
    (ys zs : List (GenItem σ))
    (hg : guard_ok c.guard a = true)
    (hi : (c.body a).items = ys ++ GenItem.cutSentinel :: zs) :
    p_prolog_loop (c :: rest) a sols false
      = sols ++ (valuesOf ys ++ valuesOf zs) := by
  simp only [p_prolog_loop, if_neg Bool.false_ne_true, hg, if_pos rfl, hi,
    drain_eq, containsCut_append, containsCut, valuesOf_append, valuesOf,
    Bool.false_or, Bool.or_true, p_prolog_loop_of_cut, List.append_assoc,
    if_true]

theorem p_prolog_cut_mid_sequence_witness :
    p_prolog_loop [gCutMid, gNine] () [] false = [1, 2] := by
  have h := p_prolog_cut_mid_sequence gCutMid [gNine] () []
    [GenItem.val 1] [GenItem.val 2] rfl rfl
  simpa [valuesOf] using h

/-- C2: in OrElse dispatch, when every clause before `c` is skipped (guard
false, including a raising guard) or fails its body, and `c`'s guard passes
and its body returns normally, the invocation returns `true` whatever clauses
follow; and when every clause of the list is skipped or fails, the invocation
returns `false`. -/
theorem predicate_first_success_wins {α ρ : Type} :
    (∀ (pre : List (Clause α ρ)) (c : Clause α ρ) (post : List (Clause α ρ))
      (a : α),
      (∀ d ∈ pre, guard_ok d.guard a = false ∨ body_ok (d.body a) = false) →
      guard_ok c.guard a = true → body_ok (c.body a) = true →
      predicate_wrapper (pre ++ c :: post) a = true)
    ∧ (∀ (defs : List (Clause α ρ)) (a : α),
      (∀ d ∈ defs, guard_ok d.guard a = false ∨ body_ok (d.body a) = false) →
      predicate_wrapper defs a = false) := by
  constructor
  · intro pre c post a hpre hg hb
    induction pre with
    | nil =>
      cases hcb : c.body a with
      | success v => simp [predicate_wrapper, hg, hcb]
      | predicateFailed m => rw [hcb] at hb; exact absurd hb (by simp [body_ok])
      | exn => rw [hcb] at hb; exact absurd hb (by simp [body_ok])
    | cons d pre ih =>
      have hd := hpre d (List.mem_cons_self d pre)
      have hrest : ∀ e ∈ pre, guard_ok e.guard a = false ∨ body_ok (e.body a) = false :=
        fun e he => hpre e (List.mem_cons_of_mem d he)
      rcases hd with hdg | hdb
      · simp only [List.cons_append, predicate_wrapper, hdg, Bool.false_eq_true,
          if_false]
        exact ih hrest
      · cases hdb2 : d.body a with
        | success v => rw [hdb2] at hdb; exact absurd hdb (by simp [body_ok])
        | predicateFailed m =>
          simp only [List.cons_append, predicate_wrapper, hdb2]
          split
          · exact ih hrest
          · exact ih hrest
        | exn =>
          simp only [List.cons_append, predicate_wrapper, hdb2]
          split
          · exact ih hrest
          · exact ih hrest
  · intro defs a hall
    induction defs with
    | nil => rfl
    | cons d rest ih =>
      have hd := hall d (List.mem_cons_self d rest)
      have hrest : ∀ e ∈ rest, guard_ok e.guard a = false ∨ body_ok (e.body a) = false :=
        fun e he => hall e (List.mem_cons_of_mem d he)
      rcases hd with hdg | hdb
      · simp only [predicate_wrapper, hdg, Bool.false_eq_true, if_false]
        exact ih hrest
      · cases hdb2 : d.body a with
        | success v => rw [hdb2] at hdb; exact absurd hdb (by simp [body_ok])
        | predicateFailed m =>
          simp only [predicate_wrapper, hdb2]
          split
          · exact ih hrest
          · exact ih hrest
        | exn =>
          simp only [predicate_wrapper, hdb2]
          split
          · exact ih hrest
          · exact ih hrest

theorem predicate_first_success_wins_witness :
    predicate_wrapper [cBodyFail, cBodySucc, cGuardFalse] 0 = true
    ∧ predicate_wrapper [cBodyFail, cGuardFalse] 0 = false := by
  constructor
  · exact predicate_first_success_wins.1 [cBodyFail] cBodySucc [cGuardFalse] 0
      (by
        intro d hd
        simp only [List.mem_singleton] at hd
        subst hd
        exact Or.inr rfl)
      rfl rfl
  · exact predicate_first_success_wins.2 [cBodyFail, cGuardFalse] 0
      (by
        intro d hd
        simp only [List.mem_cons, List.mem_singleton] at hd
        rcases hd with rfl | rfl | h
        · exact Or.inr rfl
        · exact Or.inl rfl
        · cases h)

/-- C3: in StrictAll dispatch, when every clause before `c` passes its guard
and body and `c`'s guard is not a clean `True` (it returns `False` or raises)
or `c`'s body fails, the invocation returns `false` whatever clauses follow;
and the invocation returns `true` exactly when every clause's guard and body
succeed in sequence. -/
theorem principles_strict_all {α ρ : Type} :
    (∀ (pre : List (Clause α ρ)) (c : Clause α ρ) (post : List (Clause α ρ))
      (a : α),
      (∀ d ∈ pre, guard_eval d.guard a = .ok true ∧ body_ok (d.body a) = true) →
      (guard_eval c.guard a ≠ .ok true ∨ body_ok (c.body a) = false) →
      principles_wrapper (pre ++ c :: post) a = false)
    ∧ (∀ (defs : List (Clause α ρ)) (a : α),
      (principles_wrapper defs a = true ↔
        ∀ d ∈ defs, guard_eval d.guard a = .ok true ∧ body_ok (d.body a) = true)) := by
  constructor
  · intro pre c post a hpre hfail
    induction pre with
    | nil =>
      cases hc : guard_eval c.guard a with
      | exn => simp [principles_wrapper, hc]
      | ok b =>
        cases b with
        | false => simp [principles_wrapper, hc]
        | true =>
          rcases hfail with hfg | hfb
          · exact absurd hc hfg
          · cases hcb : c.body a with
            | success v => rw [hcb] at hfb; exact absurd hfb (by simp [body_ok])
            | predicateFailed m => simp [principles_wrapper, hc, hcb]
            | exn => simp [principles_wrapper, hc, hcb]
    | cons d pre ih =>
      have hd := hpre d (List.mem_cons_self d pre)
      have hrest : ∀ e ∈ pre, guard_eval e.guard a = .ok true ∧ body_ok (e.body a) = true :=
        fun e he => hpre e (List.mem_cons_of_mem d he)
      cases hdb2 : d.body a with
      | success v =>
        simp only [List.cons_append, principles_wrapper, hd.1, hdb2]
        exact ih hrest
      | predicateFailed m => rw [hdb2] at hd; exact absurd hd.2 (by simp [body_ok])
      | exn => rw [hdb2] at hd; exact absurd hd.2 (by simp [body_ok])
  · intro defs a
    induction defs with
    | nil => simp [principles_wrapper]
    | cons c rest ih =>
      cases hc : guard_eval c.guard a with
      | exn => simp [principles_wrapper, hc, List.forall_mem_cons]
      | ok b =>
        cases b with
        | false => simp [principles_wrapper, hc, List.forall_mem_cons]
        | true =>
          cases hcb : c.body a with
          | success v =>
            simp [principles_wrapper, hc, hcb, List.forall_mem_cons, body_ok, ih]
          | predicateFailed m =>
            simp [principles_wrapper, hc, hcb, List.forall_mem_cons, body_ok]
          | exn =>
            simp [principles_wrapper, hc, hcb, List.forall_mem_cons, body_ok]

theorem principles_strict_all_witness :
    principles_wrapper [cBodySucc, cGuardFalse, cBodySucc] 0 = false
    ∧ principles_wrapper [cBodySucc, cBodySucc] 0 = true := by
  constructor
  · exact principles_strict_all.1 [cBodySucc] cGuardFalse [cBodySucc] 0
      (by
        intro d hd
        simp only [List.mem_singleton] at hd
        subst hd
        exact ⟨rfl, rfl⟩)
      (Or.inl (by decide))
  · exact (principles_strict_all.2 [cBodySucc, cBodySucc] 0).mpr
      (by
        intro d hd
        simp only [List.mem_cons, List.mem_singleton] at hd
        rcases hd with rfl | rfl | h
        · exact ⟨rfl, rfl⟩
        · exact ⟨rfl, rfl⟩
        · cases h)

/-- C4: in Backtracking dispatch, when draining a clause's sequence ends in
`PredicateFailed` after some items were yielded, the solutions appended from
the partial drain are kept, and the outer loop proceeds to the next clause
unless the cut flag was set by a sentinel earlier in the drain. -/
theorem p_prolog_partial_drain_kept {α σ : Type} (c : PClause α σ)
    (rest : List (PClause α σ)) (a : α) (sols : List σ) (msg : Option String)
    (hg : guard_ok c.guard a = true)
    (_he : (c.body a).ending = .predicateFailed msg) :
    p_prolog_loop (c :: rest) a sols false
      = cond (containsCut (c.body a).items)
          (sols ++ valuesOf (c.body a).items)
          (p_prolog_loop rest a (sols ++ valuesOf (c.body a).items) false) := by
  simp only [p_prolog_loop, if_neg Bool.false_ne_true, hg, if_pos rfl, if_true,
    drain_eq, Bool.false_or]
  cases hcut : containsCut (c.body a).items
  · rfl
  · exact p_prolog_loop_of_cut rest a (sols ++ valuesOf (c.body a).items)

theorem p_prolog_partial_drain_kept_witness :
    p_prolog_loop [gPartial, gEight] () [] false = [7, 8] := by
  have h := p_prolog_partial_drain_kept gPartial [gEight] () [] none rfl rfl
  exact h.trans (by decide)

/-- C5: for every strategy, rewriting all unexpected faults of guards and
bodies into the explicit failure outcomes they are downgraded to (guard
fault to a `False` guard, body fault to `PredicateFailed`) leaves every
invocation's result unchanged; together with the totality of the three Lean
wrappers this is the containment boundary: a fault is absorbed where it
occurs and nothing escapes the invocation. -/
theorem dispatch_downgrades_faults {α ρ σ : Type} :
    (∀ (defs : List (Clause α ρ)) (a : α),
      predicate_wrapper (defs.map downgradeClause) a = predicate_wrapper defs a)
    ∧ (∀ (defs : List (Clause α ρ)) (a : α),
      principles_wrapper (defs.map downgradeClause) a = principles_wrapper defs a)
    ∧ (∀ (defs : List (PClause α σ)) (a : α),
      p_prolog_wrapper (defs.map downgradePClause) a = p_prolog_wrapper defs a) := by
  refine ⟨?_, ?_, ?_⟩
  · intro defs a
    induction defs with
    | nil => rfl
    | cons c rest ih =>
      have hbody : (downgradeClause c).body a = downgradeBodyRes (c.body a) := rfl
      simp only [List.map_cons, predicate_wrapper, guard_ok_downgrade, hbody]
      cases hcb : c.body a with
      | success v => simp [downgradeBodyRes, ih]
      | predicateFailed m => simp [downgradeBodyRes, ih]
      | exn => simp [downgradeBodyRes, ih]
  · intro defs a
    induction defs with
    | nil => rfl
    | cons c rest ih =>
      have hbody : (downgradeClause c).body a = downgradeBodyRes (c.body a) := rfl
      simp only [List.map_cons, principles_wrapper, guard_eval_downgrade, hbody]
      cases hge : guard_eval c.guard a with
      | exn => rfl
      | ok b =>
        cases b with
        | false => rfl
        | true =>
          cases hcb : c.body a with
          | success v => simp [downgradeGuardEval, downgradeBodyRes, hcb, ih]
          | predicateFailed m => simp [downgradeGuardEval, downgradeBodyRes, hcb]
          | exn => simp [downgradeGuardEval, downgradeBodyRes, hcb]
  · intro defs a
    show p_prolog_loop (defs.map downgradePClause) a [] false
      = p_prolog_loop defs a [] false
    generalize [] = sols
    generalize false = cut
    induction defs generalizing sols cut with
    | nil => rfl
    | cons c rest ih =>
      have hitems : ((downgradePClause c).body a).items = (c.body a).items := rfl
      cases cut with
      | true => simp [p_prolog_loop]
      | false =>
        simp only [List.map_cons, p_prolog_loop, guard_ok_pdowngrade, hitems]
        cases hg : guard_ok c.guard a with
        | false => simpa using ih sols false
        | true =>
          simp only [if_true, if_pos rfl]
          exact ih _ _

/-- C6 counterexample: `@predicate()` and then `@p_prolog()` may both
decorate functions named `f`; afterwards the single name `f` simultaneously
has an OrElse wrapper and a distinct Backtracking wrapper, so the stated
invariant that one name cannot carry two strategy kinds does not hold of the
code. -/
theorem registry_two_kinds_counterexample :
    (getEntry "f" regStateB.predicate_wrappers).map Handle.kind
        = some StrategyKind.orElse
    ∧ (getEntry "f" regStateB.p_prolog_wrappers).map Handle.kind
        = some StrategyKind.backtracking
    ∧ (predicate_register "f" none unitBody (initState Unit Unit Unit)).1
        ≠ (p_prolog_register "f" none unitGen regStateA).1 := by
  refine ⟨rfl, rfl, ?_⟩
  decide

/-- C6 (amended): per dispatch strategy the invariant holds — the first
registration under a name creates the registry entry and the handle, every
later registration under that name appends its clause to the same entry,
creates nothing, and returns the stored handle; but the three strategies keep
independent registries, so nothing stops one name from also being registered
under a second strategy with its own handle. -/
theorem registry_one_handle_per_strategy {α ρ σ : Type}
    (s : RegistryState α ρ σ) (name : String) :
    (∀ (g : Option (α → GuardEval)) (b : α → BodyRes ρ) (h : Handle)
      (l : List (Clause α ρ)),
      getEntry name s.predicate_registry = some l →
      getEntry name s.predicate_wrappers = some h →
      (predicate_register name g b s).1 = h
      ∧ (predicate_register name g b s).2.predicate_wrappers
          = s.predicate_wrappers
      ∧ (predicate_register name g b s).2.nextId = s.nextId
      ∧ getEntry name (predicate_register name g b s).2.predicate_registry
          = some (l ++ [⟨g, b⟩]))
    ∧ (∀ (g : Option (α → GuardEval)) (b : α → BodyRes ρ),
      getEntry name s.predicate_registry = none →
      (predicate_register name g b s).1 = ⟨s.nextId, .orElse⟩
      ∧ getEntry name (predicate_register name g b s).2.predicate_wrappers
          = some ⟨s.nextId, .orElse⟩
      ∧ getEntry name (predicate_register name g b s).2.predicate_registry
          = some [⟨g, b⟩])
    ∧ (∀ (g : Option (α → GuardEval)) (b : α → BodyRes ρ) (h : Handle)
      (l : List (Clause α ρ)),
      getEntry name s.principles_registry = some l →
      getEntry name s.principles_wrappers = some h →
      (principles_register name g b s).1 = h
      ∧ (principles_register name g b s).2.principles_wrappers
          = s.principles_wrappers
      ∧ (principles_register name g b s).2.nextId = s.nextId
      ∧ getEntry name (principles_register name g b s).2.principles_registry
          = some (l ++ [⟨g, b⟩]))
    ∧ (∀ (g : Option (α → GuardEval)) (b : α → BodyRes ρ),
      getEntry name s.principles_registry = none →
      (principles_register name g b s).1 = ⟨s.nextId, .strictAll⟩
      ∧ getEntry name (principles_register name g b s).2.principles_wrappers
          = some ⟨s.nextId, .strictAll⟩
      ∧ getEntry name (principles_register name g b s).2.principles_registry
          = some [⟨g, b⟩])
    ∧ (∀ (g : Option (α → GuardEval)) (b : α → GenRun σ) (h : Handle)
      (l : List (PClause α σ)),
      getEntry name s.p_prolog_registry = some l →
      getEntry name s.p_prolog_wrappers = some h →
      (p_prolog_register name g b s).1 = h
      ∧ (p_prolog_register name g b s).2.p_prolog_wrappers
          = s.p_prolog_wrappers
      ∧ (p_prolog_register name g b s).2.nextId = s.nextId
      ∧ getEntry name (p_prolog_register name g b s).2.p_prolog_registry
          = some (l ++ [⟨g, b⟩]))
    ∧ (∀ (g : Option (α → GuardEval)) (b : α → GenRun σ),
      getEntry name s.p_prolog_registry = none →
      (p_prolog_register name g b s).1 = ⟨s.nextId, .backtracking⟩
      ∧ getEntry name (p_prolog_register name g b s).2.p_prolog_wrappers
          = some ⟨s.nextId, .backtracking⟩
      ∧ getEntry name (p_prolog_register name g b s).2.p_prolog_registry
          = some [⟨g, b⟩]) := by
  refine ⟨?_, ?_, ?_, ?_, ?_, ?_⟩
  · intro g b h l hreg hwrap
    refine ⟨?_, ?_, ?_, ?_⟩ <;>
      simp [predicate_register, hreg, hwrap, getEntry_setEntry_self]
  · intro g b hreg
    refine ⟨?_, ?_, ?_⟩ <;>
      simp [predicate_register, hreg, getEntry_setEntry_self]
  · intro g b h l hreg hwrap
    refine ⟨?_, ?_, ?_, ?_⟩ <;>
      simp [principles_register, hreg, hwrap, getEntry_setEntry_self]
  · intro g b hreg
    refine ⟨?_, ?_, ?_⟩ <;>
      simp [principles_register, hreg, getEntry_setEntry_self]
  · intro g b h l hreg hwrap
    refine ⟨?_, ?_, ?_, ?_⟩ <;>
      simp [p_prolog_register, hreg, hwrap, getEntry_setEntry_self]
  · intro g b hreg
    refine ⟨?_, ?_, ?_⟩ <;>
      simp [p_prolog_register, hreg, getEntry_setEntry_self]

theorem registry_one_handle_per_strategy_witness :
    (predicate_register "f" none unitBody regStateA).1 = ⟨0, .orElse⟩
    ∧ (p_prolog_register "g" none unitGen regStateB).1 = ⟨2, .backtracking⟩ := by
  constructor
  · exact ((registry_one_handle_per_strategy regStateA "f").1 none unitBody
      ⟨0, .orElse⟩ [⟨none, unitBody⟩] rfl rfl).1
  · exact ((registry_one_handle_per_strategy regStateB "g").2.2.2.2.2 none
      unitGen rfl).1

/-- C7: on the list `[1, 2, -3, 4, -5.0, 6]`, the two-clause Backtracking
predicate `find_in_list` returns `[-3]` for item `-3` (clause 1 fails its
even check, clause 2 yields and cuts), `[4]` for item `4` (clause 1 yields,
clause 2 fails its negativity check), and `[]` for item `6.5` (both clauses
fail their membership check). -/
theorem find_in_list_example :
    find_in_list (.i (-3)) exampleList = [.i (-3)]
    ∧ find_in_list (.i 4) exampleList = [.i 4]
    ∧ find_in_list (.f 13) exampleList = [] := by
  exact ⟨by decide, by decide, by decide⟩

/-- C8: in OrElse and StrictAll dispatch the value a body returns is
discarded: a body returning normally — with any value `v` whatever, falsy or
not — makes the OrElse invocation succeed at that clause, and makes the
StrictAll invocation move on to the remaining clauses. -/
theorem body_return_value_ignored {α ρ : Type} (c : Clause α ρ)
    (rest : List (Clause α ρ)) (a : α) (v : ρ)
    (hb : c.body a = .success v) :
    (guard_ok c.guard a = true → predicate_wrapper (c :: rest) a = true)
    ∧ (guard_eval c.guard a = .ok true →
      principles_wrapper (c :: rest) a = principles_wrapper rest a) := by
  constructor
  · intro hg
    simp [predicate_wrapper, hg, hb]
  · intro hg
    simp [principles_wrapper, hg, hb]

theorem body_return_value_ignored_witness :
    predicate_wrapper [cRetFalse] 0 = true
    ∧ principles_wrapper [cRetFalse] 0 = true := by
  have h := body_return_value_ignored cRetFalse [] 0 (PyVal.bool false) rfl
  exact ⟨h.1 rfl, (h.2 rfl).trans rfl⟩

/-- C9: `p_check` raises `PredicateFailed` carrying exactly its optional
message precisely when its condition is falsy under Python truthiness, and
returns `None` precisely when the condition is truthy; `p_fail`
unconditionally raises a bare `PredicateFailed`. -/
theorem p_check_p_fail_spec :
    (∀ (condition : PyVal) (message : Option PyVal),
      p_check condition message = .error ⟨message⟩ ↔ truthy condition = false)
    ∧ (∀ (condition : PyVal) (message : Option PyVal),
      p_check condition message = .ok () ↔ truthy condition = true)
    ∧ p_fail = .error ⟨none⟩ := by
  refine ⟨?_, ?_, rfl⟩
  · intro condition message
    cases h : truthy condition <;> simp [p_check, h]
  · intro condition message
    cases h : truthy condition <;> simp [p_check, h]

theorem p_check_p_fail_spec_witness :
    p_check (.int 0) none = .error ⟨none⟩
    ∧ p_check (.bool true) none = .ok () :=
  ⟨(p_check_p_fail_spec.1 (.int 0) none).mpr rfl,
   (p_check_p_fail_spec.2.1 (.bool true) none).mpr rfl⟩

/-- C10: a Backtracking invocation is a total function into solution lists
(nothing a body does can escape it); a clause whose body's returned value is
not iterable contributes no items and its `TypeError` is absorbed, dispatch
proceeding to the next clause unchanged; a clause whose body returns any
iterable has all of that iterable's values drained into the accumulator
before the next clause is tried. -/
theorem p_prolog_never_raises {α σ : Type} :
    (∀ (c : PClause α σ) (rest : List (PClause α σ)) (a : α) (sols : List σ),
      guard_ok c.guard a = true → c.body a = ⟨[], .exn⟩ →
      p_prolog_loop (c :: rest) a sols false = p_prolog_loop rest a sols false)
    ∧ (∀ (c : PClause α σ) (rest : List (PClause α σ)) (a : α) (sols : List σ)
      (items : List (GenItem σ)),
      guard_ok c.guard a = true → c.body a = ⟨items, .done⟩ →
      containsCut items = false →
      p_prolog_loop (c :: rest) a sols false
        = p_prolog_loop rest a (sols ++ valuesOf items) false) := by
  constructor
  · intro c rest a sols hg hb
    simp [p_prolog_loop, hg, hb, drain_eq, valuesOf, containsCut]
  · intro c rest a sols items hg hb hcut
    simp [p_prolog_loop, hg, hb, drain_eq, hcut]

theorem p_prolog_never_raises_witness :
    p_prolog_loop [gNonIterable, gEight] () [] false = [8]
    ∧ p_prolog_loop [gEight, gNonIterable] () [] false = [8] := by
  constructor
  · have h := p_prolog_never_raises.1 gNonIterable [gEight] () [] rfl rfl
    exact h.trans (by decide)
  · have h := p_prolog_never_raises.2 gEight [gNonIterable] () []
      [GenItem.val 8] rfl rfl rfl
    exact h.trans (by decide)
